import Mathlib

/-!
Verification development for the preconfirmation-bid bot
(`cmd/getPreconf.go`).  The Go program is shallowly embedded: pure
computations become Lean functions, external effects (clock reads, random
draws, dial/subscribe outcomes, network sends) become explicit parameters
or traces, machine integers become `Nat`/`Int` with explicit conversions,
and `float64` arithmetic is modelled by exact rational arithmetic over `ℚ`.
-/

/-! ## Bid composition (`sendPreconfBid`, lines 267-315) -/

/-- Model of `minAmount := 0.0002` in `sendPreconfBid` (float literal as an
exact rational). -/
def minAmount : ℚ := 2 / 10 ^ 4

/-- Model of `maxAmount := 0.001` in `sendPreconfBid` (float literal as an
exact rational). -/
def maxAmount : ℚ := 1 / 10 ^ 3

/-- Model of `randomEthAmount := minAmount + rand.Float64()*(maxAmount-minAmount)`;
the value drawn by `rand.Float64()` (a uniform sample in `[0,1)`) is the
explicit parameter `u`. -/
def randomEthAmount (u : ℚ) : ℚ := minAmount + u * (maxAmount - minAmount)

/-- Model of `randomWeiAmount := int64(randomEthAmount * 1e18)`: the Go
conversion truncates toward zero; the value is nonnegative here so it is the
floor. -/
def randomWeiAmount (u : ℚ) : ℤ := ⌊randomEthAmount u * 10 ^ 18⌋

/-- Model of `int64(time.Duration(36*time.Second).Milliseconds())`:
36 seconds are `36 * 10^9` nanoseconds, and `Milliseconds()` divides by
`10^6`. -/
def bidDecayDurationMs : ℤ := 36 * 1000000000 / 1000000

/-- Default minimum bid in wei named by the spec: `0.0002` of the native
unit converted to wei. -/
def minWei : ℤ := 2 * 10 ^ 14

/-- Default maximum bid in wei named by the spec: `0.001` of the native unit
converted to wei. -/
def maxWei : ℤ := 10 ^ 15

/-- The bid fields computed by `sendPreconfBid` before dispatch. -/
structure BidParams where
  amountWei : ℤ
  decayStart : ℤ
  decayEnd : ℤ
  deriving DecidableEq, Repr

/-- Model of the bid-composition part of `sendPreconfBid` (lines 271-287):
`u` is the uniform sample returned by `rand.Float64()`, `nowMs` is the value
returned by `time.Now().UnixMilli()` at line 283. -/
def composeBid (u : ℚ) (nowMs : ℤ) : BidParams :=
  { amountWei := randomWeiAmount u
    decayStart := nowMs
    decayEnd := nowMs + bidDecayDurationMs }

theorem randomEthAmount_lower {u : ℚ} (hu : 0 ≤ u) :
    minAmount ≤ randomEthAmount u := by
  have h : (0:ℚ) ≤ u * (maxAmount - minAmount) := by
    apply mul_nonneg hu
    norm_num [minAmount, maxAmount]
  have := add_le_add_left h minAmount
  simpa [randomEthAmount] using this

theorem randomEthAmount_upper {u : ℚ} (hu : u < 1) :
    randomEthAmount u < maxAmount := by
  have hd : (0:ℚ) < maxAmount - minAmount := by norm_num [minAmount, maxAmount]
  have h : u * (maxAmount - minAmount) < 1 * (maxAmount - minAmount) :=
    mul_lt_mul_of_pos_right hu hd
  simp only [one_mul] at h
  have := add_lt_add_left h minAmount
  simpa [randomEthAmount] using this

/-- C3: for every bid composed by `sendPreconfBid`, the wei amount lies in
the inclusive range `[minWei, maxWei] = [2*10^14, 10^15]`, and the amount is
the standard uniform rescaling of the uniform sample `u` onto the amount
range: the map is strictly monotone and reaches every value of
`[minAmount, maxAmount)`, so the drawn amount is uniform on that range. -/
theorem sendPreconfBid_amount_in_range (u : ℚ) (hu0 : 0 ≤ u) (hu1 : u < 1) :
    (minWei ≤ (composeBid u 0).amountWei ∧ (composeBid u 0).amountWei ≤ maxWei) ∧
      (∀ v : ℚ, u < v → randomEthAmount u < randomEthAmount v) ∧
      (∀ y : ℚ, minAmount ≤ y → y < maxAmount →
        ∃ w : ℚ, 0 ≤ w ∧ w < 1 ∧ randomEthAmount w = y) := by
  refine ⟨⟨?_, ?_⟩, ?_, ?_⟩
  · have h := randomEthAmount_lower hu0
    have h18 : minAmount * 10 ^ 18 ≤ randomEthAmount u * 10 ^ 18 := by
      apply mul_le_mul_of_nonneg_right h
      norm_num
    have hle : (minWei : ℚ) ≤ randomEthAmount u * 10 ^ 18 := by
      calc (minWei : ℚ) = minAmount * 10 ^ 18 := by norm_num [minWei, minAmount]
        _ ≤ _ := h18
    simpa [composeBid, randomWeiAmount] using Int.le_floor.mpr hle
  · have h := randomEthAmount_upper hu1
    have h18 : randomEthAmount u * 10 ^ 18 < maxAmount * 10 ^ 18 := by
      apply mul_lt_mul_of_pos_right h
      norm_num
    have hlt : randomEthAmount u * 10 ^ 18 < (maxWei : ℚ) := by
      calc randomEthAmount u * 10 ^ 18 < maxAmount * 10 ^ 18 := h18
        _ = (maxWei : ℚ) := by norm_num [maxWei, maxAmount]
    have hfl : (composeBid u 0).amountWei < maxWei := by
      simpa [composeBid, randomWeiAmount] using Int.floor_lt.mpr hlt
    exact le_of_lt hfl
  · intro v huv
    have hd : (0:ℚ) < maxAmount - minAmount := by norm_num [minAmount, maxAmount]
    have := mul_lt_mul_of_pos_right huv hd
    simpa [randomEthAmount] using add_lt_add_left this minAmount
  · intro y hy1 hy2
    have hd : (0:ℚ) < maxAmount - minAmount := by norm_num [minAmount, maxAmount]
    refine ⟨(y - minAmount) / (maxAmount - minAmount), ?_, ?_, ?_⟩
    · exact div_nonneg (by linarith) (le_of_lt hd)
    · rw [div_lt_one hd]; linarith
    · simp only [randomEthAmount]
      field_simp

/-- Witness for C3 at the concrete sample `u = 1/2`. -/
theorem sendPreconfBid_amount_in_range_witness :
    (minWei ≤ (composeBid (1/2) 0).amountWei ∧
        (composeBid (1/2) 0).amountWei ≤ maxWei) ∧
      (∀ v : ℚ, (1:ℚ)/2 < v → randomEthAmount (1/2) < randomEthAmount v) ∧
      (∀ y : ℚ, minAmount ≤ y → y < maxAmount →
        ∃ w : ℚ, 0 ≤ w ∧ w < 1 ∧ randomEthAmount w = y) :=
  sendPreconfBid_amount_in_range (1/2) (by norm_num) (by norm_num)

/-- C2: for every bid composed by `sendPreconfBid`, `decayEnd - decayStart`
is exactly 36000 milliseconds, and `decayStart` is at least the wall-clock
millisecond time `t0` at which composition began (the clock read at line 283
happens after entry, so `t0 ≤ nowMs` by clock monotonicity). -/
theorem sendPreconfBid_decay_window (u : ℚ) (nowMs t0 : ℤ) (h : t0 ≤ nowMs) :
    (composeBid u nowMs).decayEnd - (composeBid u nowMs).decayStart = 36000 ∧
      t0 ≤ (composeBid u nowMs).decayStart := by
  refine ⟨?_, ?_⟩
  · simp [composeBid, bidDecayDurationMs]
  · simpa [composeBid] using h

/-- Witness for C2 at concrete times. -/
theorem sendPreconfBid_decay_window_witness :
    (composeBid 0 1700000000000).decayEnd - (composeBid 0 1700000000000).decayStart
        = 36000 ∧
      (1699999999998 : ℤ) ≤ (composeBid 0 1700000000000).decayStart :=
  sendPreconfBid_decay_window 0 1700000000000 1699999999998 (by norm_num)

/-! ## Bid dispatch (`sendPreconfBid` type switch, lines 289-308) -/

/-- Model of a signed `*types.Transaction`: only the hash string
(`Hash().String()`, a `0x`-prefixed hex string) is observable to this
program's bidding path. -/
structure Transaction where
  hashHex : String
  deriving DecidableEq, Repr

/-- Model of `strings.TrimPrefix(s, pre)`: drop `pre` from the front of `s`
when present, otherwise return `s` unchanged (stated on the character lists
underlying the strings so that it is kernel-evaluable). -/
def goTrimPfx (s pre : String) : String :=
  if pre.data.isPrefixOf s.data then String.mk (s.data.drop pre.data.length) else s

/-- The runtime shape of the `interface{}` argument `input` of
`sendPreconfBid`.  A Go type switch matches `case *types.Transaction` even
for a typed nil pointer, so that case carries an `Option Transaction`. -/
inductive BidInput where
  | str (s : String)
  | txPtr (tx : Option Transaction)
  | other
  deriving DecidableEq, Repr

/-- Outcome of the `switch v := input.(type)` in `sendPreconfBid`:
which `SendBid` call (if any) is made, or that the default branch logs an
unsupported-type warning and returns, or that a nil `*types.Transaction`
is dereferenced by `input.(*types.Transaction).Hash()` (a panic). -/
inductive DispatchDecision where
  | sendHashes (hs : List String)
  | sendPayloads (txs : List Transaction)
  | nilDeref
  | unsupported
  deriving DecidableEq, Repr

/-- Model of the dispatch switch of `sendPreconfBid` (lines 290-308). -/
def sendPreconfBidDispatch : BidInput → DispatchDecision
  | .str v => .sendHashes [goTrimPfx v "0x"]
  | .txPtr (some t) => .sendPayloads [t]
  | .txPtr none => .nilDeref
  | .other => .unsupported

/-- Number of `SendBid` network calls a dispatch decision performs. -/
def submissionAttempts : DispatchDecision → Nat
  | .sendHashes _ => 1
  | .sendPayloads _ => 1
  | .nilDeref => 0
  | .unsupported => 0

/-- C4: dispatch is polymorphic over exactly two supported reference
shapes: a string reference has a leading `0x` stripped when present (and is
passed through unchanged otherwise); a transaction-payload reference is
submitted unmodified; any other shape is rejected by the default branch
(the unsupported-reference warning) with zero submission attempts. -/
theorem sendPreconfBid_dispatch_shapes :
    (∀ s : String, "0x".data.isPrefixOf s.data = true →
        sendPreconfBidDispatch (.str s) = .sendHashes [String.mk (s.data.drop 2)]) ∧
      (∀ s : String, "0x".data.isPrefixOf s.data = false →
        sendPreconfBidDispatch (.str s) = .sendHashes [s]) ∧
      (∀ t : Transaction,
        sendPreconfBidDispatch (.txPtr (some t)) = .sendPayloads [t]) ∧
      sendPreconfBidDispatch .other = .unsupported ∧
      submissionAttempts (sendPreconfBidDispatch .other) = 0 := by
  refine ⟨?_, ?_, ?_, rfl, rfl⟩
  · intro s h
    have hlen : "0x".data.length = 2 := by decide
    simp [sendPreconfBidDispatch, goTrimPfx, h, hlen]
  · intro s h
    simp [sendPreconfBidDispatch, goTrimPfx, h]
  · intro t
    rfl

/-- Witness for C4 at concrete references. -/
theorem sendPreconfBid_dispatch_shapes_witness :
    sendPreconfBidDispatch (.str "0xabc") = .sendHashes ["abc"] ∧
      sendPreconfBidDispatch (.str "abc") = .sendHashes ["abc"] ∧
      sendPreconfBidDispatch .other = .unsupported := by
  refine ⟨?_, ?_, sendPreconfBid_dispatch_shapes.2.2.2.1⟩
  · have h := sendPreconfBid_dispatch_shapes.1 "0xabc" (by decide)
    rw [h]
    decide
  · exact sendPreconfBid_dispatch_shapes.2.1 "abc" (by decide)

/-! ## Random-source seeding (`sendPreconfBid`, lines 267-274) -/

/-- Events on the shared random source: `rand.Seed(uint64(time.Now().UnixNano()))`
and the `rand.Float64()` draw. -/
inductive RandEvent where
  | seed (timeNs : ℤ)
  | draw
  deriving DecidableEq, Repr

/-- Random-source events of a single `sendPreconfBid` call: the function
reseeds from the current time at line 269 and then draws at line 274. -/
def sendPreconfBidRandEvents (seedTimeNs : ℤ) : List RandEvent :=
  [.seed seedTimeNs, .draw]

/-- Random-source events of a run that composes one bid per listed call
(one entry of `seedTimes` per `sendPreconfBid` invocation). -/
def bidRunRandEvents (seedTimes : List ℤ) : List RandEvent :=
  seedTimes.flatMap sendPreconfBidRandEvents

/-- Number of seeding events in a random-source event list. -/
def countSeeds (es : List RandEvent) : Nat :=
  es.countP fun e => match e with | .seed _ => true | .draw => false

/-- C9 counterexample: a run composing two bids seeds the random source
twice, not once — a reseeding from the current time occurs between the two
bids, refuting that the source is seeded exactly once per run. -/
theorem sendPreconfBid_reseeds_per_bid_counterexample :
    ¬ countSeeds (bidRunRandEvents [10, 20]) = 1 := by decide

/-- C9 amended: the random source is reseeded from the current time at the
start of every `sendPreconfBid` call — once per bid, so a run of `n` bids
performs exactly `n` seedings. -/
theorem sendPreconfBid_seeds_once_per_bid (seedTimes : List ℤ) :
    countSeeds (bidRunRandEvents seedTimes) = seedTimes.length := by
  induction seedTimes with
  | nil => rfl
  | cons t ts ih =>
    have h : countSeeds (bidRunRandEvents (t :: ts)) =
        countSeeds (bidRunRandEvents ts) + 1 := by
      simp [bidRunRandEvents, sendPreconfBidRandEvents, countSeeds,
        List.countP_cons]
    rw [h, ih, List.length_cons]

/-! ## Per-head iteration of the event loop (`main`, lines 156-202) -/

/-- Model of the Go conversion `int64(x)` applied to a `uint64` value
( reinterpretation modulo `2^64` ). -/
def int64OfUint64 (x : ℕ) : ℤ :=
  if x % 2 ^ 64 < 2 ^ 63 then ((x % 2 ^ 64 : ℕ) : ℤ)
  else ((x % 2 ^ 64 : ℕ) : ℤ) - 2 ^ 64

theorem int64OfUint64_of_lt {x : ℕ} (h : x < 2 ^ 63) : int64OfUint64 x = x := by
  have h64 : x < 2 ^ 64 := lt_trans h (by norm_num)
  unfold int64OfUint64
  rw [Nat.mod_eq_of_lt h64]
  have h' : x < 9223372036854775808 := by
    calc x < 2 ^ 63 := h
      _ = 9223372036854775808 := by norm_num
  simp [h']

/-- Modelled from the spec: `ee.SelfETHTransfer` lives in the external
module `primev/preconf_blob_bidder` (package `core/eth`), not in this
repository's source; per the spec the Transaction Builder computes the
returned block number as `head.number + session.offset`. -/
def selfETHTransferBlockNumber (headNumber offset : ℕ) : ℕ :=
  headNumber + offset

/-- Modelled from the spec: `ee.ExecuteBlobTransaction` lives in the
external module `primev/preconf_blob_bidder`, not in this repository's
source; per the spec it computes the returned block number as
`head.number + session.offset`. -/
def executeBlobTransactionBlockNumber (headNumber offset : ℕ) : ℕ :=
  headNumber + offset

/-- Model of `ETH_TRANSFER`/`BLOB` conflict validation (line 89). -/
def modeConflict (ethTransfer blob : String) : Bool :=
  ethTransfer == "true" && blob == "true"

/-- The submission phase reached at the end of a loop iteration
(lines 185-195).  In the bundle path, `bid = none` records that evaluating
`signedTx.Hash().String()` dereferenced a nil pointer (a panic), so the
`sendPreconfBid` call is never made. -/
inductive SubmissionPhase where
  | payloadBid (input : BidInput) (target : ℤ)
  | bundleThenHashBid (bundleTx : Option Transaction) (bundleBlock : ℕ)
      (bid : Option (BidInput × ℤ))
  deriving DecidableEq, Repr

/-- Observable outcome of one `case header := <-headers` iteration. -/
structure IterTrace where
  signedTx : Option Transaction
  blockNumber : ℕ
  txNilErrorLogged : Bool
  phase : SubmissionPhase
  deriving DecidableEq, Repr

/-- Model of the header case of the event loop (lines 156-202): `signedTx`
and `blockNumber` keep their zero values unless a mode fires; the nil check
at line 167 only logs; every iteration then reaches the submission phase —
`sendPreconfBid(bidderClient, signedTx, int64(blockNumber))` when
`usePayload`, otherwise `SendBundle` followed by
`sendPreconfBid(bidderClient, signedTx.Hash().String(), int64(blockNumber))`.
The builder outcomes are the parameters `buildSelf`/`buildBlob`. -/
def iterOnHead (ethTransfer blob : String) (usePayload : Bool)
    (buildSelf buildBlob : Option Transaction × ℕ) : IterTrace :=
  let build :=
    if ethTransfer == "true" then buildSelf
    else if blob == "true" then buildBlob
    else (none, 0)
  { signedTx := build.1
    blockNumber := build.2
    txNilErrorLogged := build.1.isNone
    phase :=
      if usePayload then
        .payloadBid (.txPtr build.1) (int64OfUint64 build.2)
      else
        .bundleThenHashBid build.1 build.2
          (match build.1 with
            | some t => some (.str t.hashHex, int64OfUint64 build.2)
            | none => none) }

/-- The `sendPreconfBid` call made by a submission phase, if any. -/
def bidCallOf : SubmissionPhase → Option (BidInput × ℤ)
  | .payloadBid input target => some (input, target)
  | .bundleThenHashBid _ _ bid => bid

/-- C1: for every head processed in a configured mode whose construction
succeeds, the block number attached to the candidate transaction and the
target of the submitted bid both equal the head number plus the configured
offset. -/
theorem targetBlock_eq_head_plus_offset (eth blob : String) (usePayload : Bool)
    (t : Transaction) (n o : ℕ)
    (hmode : eth = "true" ∨ (eth ≠ "true" ∧ blob = "true"))
    (hrange : n + o < 2 ^ 63) :
    (iterOnHead eth blob usePayload
        (some t, selfETHTransferBlockNumber n o)
        (some t, executeBlobTransactionBlockNumber n o)).blockNumber = n + o ∧
      ∃ input : BidInput,
        bidCallOf (iterOnHead eth blob usePayload
            (some t, selfETHTransferBlockNumber n o)
            (some t, executeBlobTransactionBlockNumber n o)).phase =
          some (input, ((n + o : ℕ) : ℤ)) := by
  have hcast := int64OfUint64_of_lt hrange
  rcases hmode with h | ⟨hne, hb⟩
  · have h1 : (eth == "true") = true := beq_iff_eq.mpr h
    cases usePayload with
    | false =>
      refine ⟨?_, ⟨.str t.hashHex, ?_⟩⟩ <;>
        simp [iterOnHead, h1, bidCallOf, selfETHTransferBlockNumber, hcast]
    | true =>
      refine ⟨?_, ⟨.txPtr (some t), ?_⟩⟩ <;>
        simp [iterOnHead, h1, bidCallOf, selfETHTransferBlockNumber, hcast]
  · have h1 : (eth == "true") = false := beq_eq_false_iff_ne.mpr hne
    have h2 : (blob == "true") = true := beq_iff_eq.mpr hb
    cases usePayload with
    | false =>
      refine ⟨?_, ⟨.str t.hashHex, ?_⟩⟩ <;>
        simp [iterOnHead, h1, h2, bidCallOf, executeBlobTransactionBlockNumber,
          hcast]
    | true =>
      refine ⟨?_, ⟨.txPtr (some t), ?_⟩⟩ <;>
        simp [iterOnHead, h1, h2, bidCallOf, executeBlobTransactionBlockNumber,
          hcast]

/-- Witness for C1: head 100, offset 1, self-transfer mode, payload path. -/
theorem targetBlock_eq_head_plus_offset_witness :
    (iterOnHead "true" "" true
        (some ⟨"0xabc"⟩, selfETHTransferBlockNumber 100 1)
        (some ⟨"0xabc"⟩, executeBlobTransactionBlockNumber 100 1)).blockNumber
        = 101 ∧
      ∃ input : BidInput,
        bidCallOf (iterOnHead "true" "" true
            (some ⟨"0xabc"⟩, selfETHTransferBlockNumber 100 1)
            (some ⟨"0xabc"⟩, executeBlobTransactionBlockNumber 100 1)).phase =
          some (input, (101 : ℤ)) := by
  have h := targetBlock_eq_head_plus_offset "true" "" true ⟨"0xabc"⟩ 100 1
    (Or.inl rfl) (by norm_num)
  simpa using h

/-- C5 (code behaviour at the failing input): when construction yields a
nil signed transaction, the iteration logs the nil-transaction error but
still reaches bid submission — on the payload path it calls
`sendPreconfBid` with the nil `*types.Transaction` as the reference (whose
dispatch dereferences the nil pointer), instead of skipping bidding for
that head. -/
theorem nil_tx_still_reaches_bid_submission :
    (iterOnHead "true" "" true (none, 0) (none, 0)).txNilErrorLogged = true ∧
      (iterOnHead "true" "" true (none, 0) (none, 0)).phase =
        .payloadBid (.txPtr none) 0 ∧
      bidCallOf (iterOnHead "true" "" true (none, 0) (none, 0)).phase =
        some (.txPtr none, 0) ∧
      sendPreconfBidDispatch (.txPtr none) = .nilDeref := by
  refine ⟨?_, ?_, ?_, rfl⟩ <;> decide

/-- C10: a configuration with neither mode flag equal to "true" passes the
startup conflict validation, and then every iteration constructs no
transaction (the signed transaction stays nil, the block number stays 0)
yet still reaches the submission phase with the nil transaction as the
reference: the payload path calls `sendPreconfBid` with the nil pointer,
and the bundle path hands the nil transaction to `SendBundle` and then
panics evaluating its hash, never reaching a bid call. -/
theorem no_mode_passes_validation_but_bids_nil (eth blob : String)
    (usePayload : Bool) (buildSelf buildBlob : Option Transaction × ℕ)
    (he : eth ≠ "true") (hb : blob ≠ "true") :
    modeConflict eth blob = false ∧
      (iterOnHead eth blob usePayload buildSelf buildBlob).signedTx = none ∧
      (iterOnHead eth blob usePayload buildSelf buildBlob).blockNumber = 0 ∧
      (usePayload = true →
        (iterOnHead eth blob usePayload buildSelf buildBlob).phase =
          .payloadBid (.txPtr none) 0) ∧
      (usePayload = false →
        (iterOnHead eth blob usePayload buildSelf buildBlob).phase =
          .bundleThenHashBid none 0 none) := by
  have h1 : (eth == "true") = false := beq_eq_false_iff_ne.mpr he
  have h2 : (blob == "true") = false := beq_eq_false_iff_ne.mpr hb
  have hz : int64OfUint64 0 = 0 := int64OfUint64_of_lt (by norm_num)
  refine ⟨?_, ?_, ?_, ?_, ?_⟩ <;>
    first
      | simp [modeConflict, h1, h2]
      | (intro hp; subst hp; simp [iterOnHead, h1, h2, hz])
      | simp [iterOnHead, h1, h2]

/-- Witness for C10 with both flags unset and the payload path. -/
theorem no_mode_passes_validation_but_bids_nil_witness :
    modeConflict "" "" = false ∧
      (iterOnHead "" "" true (none, 0) (none, 0)).signedTx = none ∧
      (iterOnHead "" "" true (none, 0) (none, 0)).blockNumber = 0 ∧
      ((true : Bool) = true →
        (iterOnHead "" "" true (none, 0) (none, 0)).phase =
          .payloadBid (.txPtr none) 0) ∧
      ((true : Bool) = false →
        (iterOnHead "" "" true (none, 0) (none, 0)).phase =
          .bundleThenHashBid none 0 none) :=
  no_mode_passes_validation_but_bids_nil "" "" true (none, 0) (none, 0)
    (by decide) (by decide)

/-! ## Startup sequence of `main` (lines 85-143) -/

/-- The network operations main performs during startup, in program order:
connecting the mev-commit bidder client (line 113), dialing the RPC client
(line 125, only when `usePayload` is false), dialing the WS client
(line 133), and subscribing to new heads (line 140). -/
inductive NetworkOp where
  | dialBidderClient
  | dialRPCClient
  | dialWSClient
  | subscribeHeads
  deriving DecidableEq, Repr

/-- Whether startup terminates the process (`log.Crit`) or reaches the
event loop. -/
inductive StartupOutcome where
  | fatal (reason : String)
  | entersLoop
  deriving DecidableEq, Repr

/-- Observable startup behaviour: its outcome and the network operations
attempted before that outcome. -/
structure StartupTrace where
  outcome : StartupOutcome
  networkOps : List NetworkOp
  deriving DecidableEq, Repr

/-- Model of `main`'s startup (lines 85-143) after the environment reads
(which perform no network calls): the mode-conflict check at line 89 runs
first; `authOk` is the outcome of `AuthenticateAddress` (local key
parsing), `bidderOk` of `NewBidderClient`, `subOk` of `SubscribeNewHead`.
A failed RPC dial is only logged (`log.Error`, line 127), never fatal, so
it needs no outcome parameter; `connectWSClient` retries forever and
returns only on success, so the `err != nil` branch at line 134 is dead. -/
def startup (ethTransfer blob : String) (usePayload : Bool)
    (authOk bidderOk subOk : Bool) : StartupTrace :=
  if modeConflict ethTransfer blob then
    { outcome := .fatal "Only one of --ethtransfer or --blob can be set at a time"
      networkOps := [] }
  else if !authOk then
    { outcome := .fatal "Failed to authenticate private key"
      networkOps := [] }
  else if !bidderOk then
    { outcome := .fatal "failed to connect to mev-commit bidder API"
      networkOps := [.dialBidderClient] }
  else
    let rpcOps : List NetworkOp := if !usePayload then [.dialRPCClient] else []
    if !subOk then
      { outcome := .fatal "failed to subscribe to new blocks"
        networkOps := [.dialBidderClient] ++ rpcOps ++ [.dialWSClient, .subscribeHeads] }
    else
      { outcome := .entersLoop
        networkOps := [.dialBidderClient] ++ rpcOps ++ [.dialWSClient, .subscribeHeads] }

/-- C6: configuring both mode flags simultaneously makes startup fail with
the config-conflict fatal error before any network call is attempted, and
every run that reaches the event loop has at most one mode flag set. -/
theorem startup_mode_conflict_fatal (eth blob : String)
    (usePayload authOk bidderOk subOk : Bool) :
    (eth = "true" ∧ blob = "true" →
        startup eth blob usePayload authOk bidderOk subOk =
          { outcome := .fatal "Only one of --ethtransfer or --blob can be set at a time"
            networkOps := [] }) ∧
      ((startup eth blob usePayload authOk bidderOk subOk).outcome = .entersLoop →
        ¬ (eth = "true" ∧ blob = "true")) := by
  constructor
  · rintro ⟨h1, h2⟩
    subst h1; subst h2
    simp [startup, modeConflict]
  · rintro hloop ⟨h1, h2⟩
    subst h1; subst h2
    simp [startup, modeConflict] at hloop

/-- Witness for C6 with both flags set. -/
theorem startup_mode_conflict_fatal_witness :
    startup "true" "true" true true true true =
      { outcome := .fatal "Only one of --ethtransfer or --blob can be set at a time"
        networkOps := [] } :=
  (startup_mode_conflict_fatal "true" "true" true true true true).1 ⟨rfl, rfl⟩

/-! ## Retry loops (`connectRPCClientWithRetries` lines 214-233,
`reconnectWSClient` lines 246-265) -/

/-- Trace of a bounded retry loop: how many attempts were made, the sleeps
performed after failed attempts (in program order), and whether the loop
returned successfully. -/
structure RetryTrace where
  attemptsMade : ℕ
  sleeps : List ℕ
  success : Bool
  deriving DecidableEq, Repr

/-- Model of the retry loop of `reconnectWSClient` (lines 251-262): `ok i`
is whether attempt `i` (reconnect the WS client, then resubscribe to heads)
succeeds; a failed attempt sleeps 5 time units.  `i` is the index of the
next attempt and the second argument the number of loop iterations left. -/
def reconnectAux (ok : ℕ → Bool) (i : ℕ) : ℕ → RetryTrace
  | 0 => { attemptsMade := 0, sleeps := [], success := false }
  | n + 1 =>
    if ok i then { attemptsMade := 1, sleeps := [], success := true }
    else
      let rest := reconnectAux ok (i + 1) n
      { attemptsMade := rest.attemptsMade + 1
        sleeps := 5 :: rest.sleeps
        success := rest.success }

/-- Model of `reconnectWSClient` (lines 246-265): ten attempts at most;
falling out of the loop reaches the `log.Crit` at line 263 (fatal), which
is `success = false`. -/
def reconnectWSClient (ok : ℕ → Bool) : RetryTrace :=
  reconnectAux ok 0 10

theorem reconnectAux_attempts_le (ok : ℕ → Bool) (n : ℕ) :
    ∀ i, (reconnectAux ok i n).attemptsMade ≤ n := by
  induction n with
  | zero => intro i; simp [reconnectAux]
  | succ n ih =>
    intro i
    by_cases h : ok i
    · simp [reconnectAux, h]
    · have := ih (i + 1)
      simp [reconnectAux, h]
      omega

theorem reconnectAux_all_fail (ok : ℕ → Bool) (n : ℕ) :
    ∀ i, (∀ j, j < n → ok (i + j) = false) →
      reconnectAux ok i n =
        { attemptsMade := n, sleeps := List.replicate n 5, success := false } := by
  induction n with
  | zero => intro i _; rfl
  | succ n ih =>
    intro i hfail
    have h0 : ok i = false := by simpa using hfail 0 (Nat.succ_pos n)
    have hrest : ∀ j, j < n → ok (i + 1 + j) = false := by
      intro j hj
      have := hfail (j + 1) (by omega)
      simpa [Nat.add_assoc, Nat.add_comm 1 j] using this
    simp [reconnectAux, h0, ih (i + 1) hrest, List.replicate_succ]

/-- C7: after a subscription error, reconnection is attempted at most 10
times with a fixed 5-time-unit delay after each failed attempt; when all
10 attempts fail the function falls through to `log.Crit` (process
terminates) having made exactly 10 attempts and no 11th. -/
theorem reconnectWSClient_bounded (ok : ℕ → Bool) :
    (reconnectWSClient ok).attemptsMade ≤ 10 ∧
      ((∀ i, i < 10 → ok i = false) →
        reconnectWSClient ok =
          { attemptsMade := 10, sleeps := List.replicate 10 5, success := false }) := by
  refine ⟨reconnectAux_attempts_le ok 10 0, ?_⟩
  intro hfail
  have h : ∀ j, j < 10 → ok (0 + j) = false := by
    intro j hj; simpa using hfail j hj
  exact reconnectAux_all_fail ok 10 0 h

/-- Witness for C7 with every attempt failing. -/
theorem reconnectWSClient_bounded_witness :
    (reconnectWSClient fun _ => false).attemptsMade ≤ 10 ∧
      reconnectWSClient (fun _ => false) =
        { attemptsMade := 10, sleeps := List.replicate 10 5, success := false } :=
  ⟨(reconnectWSClient_bounded fun _ => false).1,
    (reconnectWSClient_bounded fun _ => false).2 fun _ _ => rfl⟩

/-- Trace of the RPC dial loop: the returned connection (if any), the
number of dial attempts made, and the sleeps performed after failed
attempts, in program order. -/
structure DialTrace (α : Type) where
  result : Option α
  attemptsMade : ℕ
  sleeps : List ℕ
  deriving DecidableEq, Repr

/-- Model of the loop body of `connectRPCClientWithRetries` (lines
218-229): `dial i` is the outcome of `ethclient.DialContext` on attempt
`i` (each attempt bounded by the caller-supplied timeout); a failed attempt
sleeps `10 * 2^i` time units (`time.Sleep(10 * time.Duration(math.Pow(2,
float64(i))))`, and `math.Pow(2, float64(i))` is exact for every attempt
index that fits a double's mantissa).  `i` is the next attempt's index and
the last argument the number of loop iterations left. -/
def connectRPCAux {α : Type} (dial : ℕ → Option α) (i : ℕ) : ℕ → DialTrace α
  | 0 => { result := none, attemptsMade := 0, sleeps := [] }
  | n + 1 =>
    match dial i with
    | some c => { result := some c, attemptsMade := 1, sleeps := [] }
    | none =>
      let rest := connectRPCAux dial (i + 1) n
      { result := rest.result
        attemptsMade := rest.attemptsMade + 1
        sleeps := 10 * 2 ^ i :: rest.sleeps }

/-- Model of `connectRPCClientWithRetries` (lines 214-233): after
`maxRetries` failed attempts it logs an error (`log.Error`, line 231) and
returns a nil connection rather than terminating. -/
def connectRPCClientWithRetries {α : Type} (dial : ℕ → Option α)
    (maxRetries : ℕ) : DialTrace α :=
  connectRPCAux dial 0 maxRetries

/-- The exponential-backoff sleep schedule: attempt indices `i`, `i+1`,
..., `i+k-1`, each sleeping `10 * 2^index`. -/
def expSleeps (i k : ℕ) : List ℕ :=
  (List.range k).map fun j => 10 * 2 ^ (i + j)

theorem expSleeps_succ (i k : ℕ) :
    expSleeps i (k + 1) = 10 * 2 ^ i :: expSleeps (i + 1) k := by
  unfold expSleeps
  rw [List.range_succ_eq_map, List.map_cons, List.map_map]
  simp only [Nat.add_zero]
  congr 1
  apply List.map_congr_left
  intro j _
  simp only [Function.comp_apply]
  have harg : i + Nat.succ j = i + 1 + j := by omega
  rw [harg]

theorem connectRPCAux_attempts_le {α : Type} (dial : ℕ → Option α) (n : ℕ) :
    ∀ i, (connectRPCAux dial i n).attemptsMade ≤ n := by
  induction n with
  | zero => intro i; simp [connectRPCAux]
  | succ n ih =>
    intro i
    match hd : dial i with
    | some c => simp [connectRPCAux, hd]
    | none =>
      have := ih (i + 1)
      simp [connectRPCAux, hd]
      omega

theorem connectRPCAux_all_fail {α : Type} (dial : ℕ → Option α) (n : ℕ) :
    ∀ i, (∀ j, j < n → dial (i + j) = none) →
      connectRPCAux dial i n =
        { result := none, attemptsMade := n, sleeps := expSleeps i n } := by
  induction n with
  | zero => intro i _; rfl
  | succ n ih =>
    intro i hfail
    have h0 : dial i = none := by simpa using hfail 0 (Nat.succ_pos n)
    have hrest : ∀ j, j < n → dial (i + 1 + j) = none := by
      intro j hj
      have := hfail (j + 1) (by omega)
      simpa [Nat.add_assoc, Nat.add_comm 1 j] using this
    simp [connectRPCAux, h0, ih (i + 1) hrest, expSleeps_succ]

theorem connectRPCAux_first_success {α : Type} (dial : ℕ → Option α)
    (c : α) (k : ℕ) :
    ∀ i n, k < n → (∀ j, j < k → dial (i + j) = none) →
      dial (i + k) = some c →
      connectRPCAux dial i n =
        { result := some c, attemptsMade := k + 1, sleeps := expSleeps i k } := by
  induction k with
  | zero =>
    intro i n hn _ hsucc
    match n, hn with
    | m + 1, _ =>
      simp only [Nat.add_zero] at hsucc
      simp [connectRPCAux, hsucc, expSleeps]
  | succ k ih =>
    intro i n hn hfail hsucc
    match n, hn with
    | m + 1, hn =>
      have h0 : dial i = none := by simpa using hfail 0 (Nat.succ_pos k)
      have hfail' : ∀ j, j < k → dial (i + 1 + j) = none := by
        intro j hj
        have := hfail (j + 1) (by omega)
        simpa [Nat.add_assoc, Nat.add_comm 1 j] using this
      have hsucc' : dial (i + 1 + k) = some c := by
        have : i + 1 + k = i + (k + 1) := by omega
        rw [this]; exact hsucc
      have hk : k < m := by omega
      simp [connectRPCAux, h0, ih (i + 1) m hk hfail' hsucc', expSleeps_succ]

/-- C8: the RPC dialer makes at most `maxRetries` dial attempts; on the
first success (attempt `k`, after `k` failures) it returns that connection
having slept `10 * 2^0, ..., 10 * 2^(k-1)` after the failed attempts; if
every attempt fails it returns a nil connection after exactly `maxRetries`
attempts with the full backoff schedule — and the caller in `main` (lines
122-130) only logs such a failure (`log.Error`), it never terminates, so a
nil connection degrades the run rather than ending it. -/
theorem connectRPCClientWithRetries_spec {α : Type} (dial : ℕ → Option α)
    (maxRetries : ℕ) :
    (connectRPCClientWithRetries dial maxRetries).attemptsMade ≤ maxRetries ∧
      (∀ (c : α) (k : ℕ), k < maxRetries → (∀ j, j < k → dial j = none) →
        dial k = some c →
        connectRPCClientWithRetries dial maxRetries =
          { result := some c, attemptsMade := k + 1, sleeps := expSleeps 0 k }) ∧
      ((∀ i, i < maxRetries → dial i = none) →
        connectRPCClientWithRetries dial maxRetries =
          { result := none, attemptsMade := maxRetries,
            sleeps := expSleeps 0 maxRetries }) := by
  refine ⟨connectRPCAux_attempts_le dial maxRetries 0, ?_, ?_⟩
  · intro c k hk hbefore hsucc
    have hb : ∀ j, j < k → dial (0 + j) = none := by
      intro j hj; simpa using hbefore j hj
    have hs : dial (0 + k) = some c := by simpa using hsucc
    exact connectRPCAux_first_success dial c k 0 maxRetries hk hb hs
  · intro hfail
    have h : ∀ j, j < maxRetries → dial (0 + j) = none := by
      intro j hj; simpa using hfail j hj
    exact connectRPCAux_all_fail dial maxRetries 0 h

/-- Witness for C8: five attempts as in `main`, success on attempt 2 after
two failures with sleeps 10 and 20. -/
theorem connectRPCClientWithRetries_spec_witness :
    (connectRPCClientWithRetries
        (fun i => if i < 2 then (none : Option ℕ) else some 7) 5).attemptsMade ≤ 5 ∧
      connectRPCClientWithRetries
          (fun i => if i < 2 then (none : Option ℕ) else some 7) 5 =
        { result := some 7, attemptsMade := 3, sleeps := expSleeps 0 2 } ∧
      connectRPCClientWithRetries (fun _ : ℕ => (none : Option ℕ)) 5 =
        { result := none, attemptsMade := 5, sleeps := expSleeps 0 5 } :=
  ⟨(connectRPCClientWithRetries_spec
      (fun i => if i < 2 then (none : Option ℕ) else some 7) 5).1,
    (connectRPCClientWithRetries_spec
        (fun i => if i < 2 then (none : Option ℕ) else some 7) 5).2.1 7 2
      (by norm_num) (fun j hj => by simp [hj]) (by norm_num),
    (connectRPCClientWithRetries_spec (fun _ : ℕ => (none : Option ℕ)) 5).2.2
      (fun _ _ => rfl)⟩
